import Mathlib

/-!
Verification of `dsm/utilities.py` (Deep Survival Machines training
utilities).  The file shallowly embeds the training utilities: numeric
values live in `ℚ`, the floating-point sentinel `NaN` used for padding
is modelled by `Option ℚ` (with `none` the sentinel, matching the exact
`torch.isnan` test), Python's `float('inf')` initialisation of `oldcost`
is modelled by `Option ℚ` (with `none` meaning `+∞`, against which no
finite comparison `cost ≥ oldcost` or `|cost - oldcost| < thres`
succeeds), and the external torch collaborators (model construction,
gradient steps and loss evaluation) are abstract oracle functions
supplied as parameters.
-/

namespace DSMSpec

/-! ## Python `max` over a list (raises on an empty argument) -/

/-- Python's `max` on a list of naturals: an error on an empty list
(`ValueError: max() arg is an empty sequence`), otherwise the maximum. -/
def pyMax : List Nat → Except String Nat
  | [] => .error "max() arg is an empty sequence"
  | a :: rest => .ok (rest.foldl max a)

theorem foldl_max_init_le {α : Type} [LinearOrder α] (l : List α) (a : α) :
    a ≤ l.foldl max a := by
  induction l generalizing a with
  | nil => exact le_refl a
  | cons b t ih => exact le_trans (le_max_left a b) (ih (max a b))

theorem le_foldl_max_of_mem {α : Type} [LinearOrder α] {l : List α} {x : α}
    (hx : x ∈ l) (a : α) : x ≤ l.foldl max a := by
  induction l generalizing a with
  | nil => cases hx
  | cons b t ih =>
    simp only [List.foldl_cons]
    rcases List.mem_cons.mp hx with h | h
    · subst h
      exact le_trans (le_max_right a x) (foldl_max_init_le t (max a x))
    · exact ih h (max a b)

theorem pyMax_ge {l : List Nat} {d : Nat} (hd : pyMax l = .ok d) {x : Nat}
    (hx : x ∈ l) : x ≤ d := by
  cases l with
  | nil => cases hd
  | cons a rest =>
    simp only [pyMax, Except.ok.injEq] at hd
    subst hd
    rcases List.mem_cons.mp hx with h | h
    · exact h ▸ foldl_max_init_le rest a
    · exact le_foldl_max_of_mem h a

theorem pyMax_ok_of_ne_nil {l : List Nat} (h : l ≠ []) :
    ∃ d, pyMax l = .ok d := by
  cases l with
  | nil => exact absurd rfl h
  | cons a rest => exact ⟨rest.foldl max a, rfl⟩

theorem foldl_max_mem {α : Type} [LinearOrder α] (l : List α) (a : α) :
    l.foldl max a = a ∨ l.foldl max a ∈ l := by
  induction l generalizing a with
  | nil => exact Or.inl rfl
  | cons b t ih =>
    simp only [List.foldl_cons]
    rcases ih (max a b) with h | h
    · rcases max_choice a b with hm | hm
      · exact Or.inl (h.trans hm)
      · exact Or.inr (List.mem_cons.mpr (Or.inl (h.trans hm)))
    · exact Or.inr (List.mem_cons.mpr (Or.inr h))

/-! ## Data model: the target torch model and optimizers

`DeepSurvivalMachinesTorch` instances expose a distribution-family tag
`dist`, scalar parameters `shape` and `scale`, a declared `optimizer`
kind, and a vector of trainable parameters (abstracted to `List ℚ`). -/

structure Model where
  optimizer : String
  dist : String
  shape : ℚ
  scale : ℚ
  params : List ℚ
deriving DecidableEq, Repr

/-- A concrete torch optimizer instance, bound to the parameters it was
constructed over and to its learning rate. -/
inductive Optimizer where
  | adam (params : List ℚ) (lr : ℚ)
  | sgd (params : List ℚ) (lr : ℚ)
  | rmsprop (params : List ℚ) (lr : ℚ)
deriving DecidableEq, Repr

/-- `get_optimizer(model, lr)`: dispatch on `model.optimizer`, raising
`NotImplementedError('Optimizer '+model.optimizer+' is not implemented')`
for an unrecognised kind. -/
def get_optimizer (model : Model) (lr : ℚ) : Except String Optimizer :=
  if model.optimizer = "Adam" then .ok (.adam model.params lr)
  else if model.optimizer = "SGD" then .ok (.sgd model.params lr)
  else if model.optimizer = "RMSProp" then .ok (.rmsprop model.params lr)
  else .error ("Optimizer " ++ model.optimizer ++ " is not implemented")

/-- The optimizer `train_dsm` actually constructs (line 128 of
`utilities.py`): `torch.optim.Adam(model.parameters(), lr=lr)`,
regardless of `model.optimizer`. -/
def train_dsm_optimizer (model : Model) (lr : ℚ) : Optimizer :=
  .adam model.params lr

/-! ## Padding utilities

A per-subject 2D numpy array: `rows` of data together with its second
dimension `ncols` (= `shape[1]`, defined even for zero rows). -/

structure Arr2 where
  rows : List (List ℚ)
  ncols : Nat
deriving DecidableEq, Repr

/-- One subject of `_get_padded_features`: the subject's own rows
followed by `d - len(x[i])` all-`NaN` rows of width `x[i].shape[1]`
(`np.concatenate([x[i], np.nan*np.ones((d - len(x[i]), x[i].shape[1]))])`).
Cells of the result are `Option ℚ`, `none` = `NaN`. -/
def padFeatSubject (d : Nat) (a : Arr2) : List (List (Option ℚ)) :=
  a.rows.map (fun r => r.map some) ++
    List.replicate (d - a.rows.length) (List.replicate a.ncols none)

/-- `_get_padded_features(x)`: `d = max(len(x_) for x_ in x)`; each
subject is padded to `d` rows. -/
def _get_padded_features (x : List Arr2) :
    Except String (List (List (List (Option ℚ)))) :=
  match pyMax (x.map (fun a => a.rows.length)) with
  | .error e => .error e
  | .ok d => .ok (x.map (padFeatSubject d))

/-- `_get_padded_targets(t)`: `d = max(len(t_) for t_ in t)`; each 1D
subject sequence is extended with `d - len(t[i])` `NaN` entries, and the
final `[:, :, np.newaxis]` wraps every scalar into a singleton row. -/
def _get_padded_targets (t : List (List ℚ)) :
    Except String (List (List (List (Option ℚ)))) :=
  match pyMax (t.map List.length) with
  | .error e => .error e
  | .ok d => .ok (t.map (fun ti =>
      (ti.map some ++ List.replicate (d - ti.length) none).map (fun c => [c])))

/-- `_reshape_tensor_with_nans(data)`: `data.reshape(-1)` (row-major
flatten) followed by `data[~torch.isnan(data)]` (exact removal of every
sentinel entry, order preserved). -/
def _reshape_tensor_with_nans (data : List (List (List (Option ℚ)))) :
    List ℚ :=
  (data.flatten.flatten).filterMap id

/-! ## Pretraining loop (`pretrain_dsm`)

The single-feature premodel built by `DeepSurvivalMachinesTorch(1, 1,
dist=model.dist)`; its learned `shape`/`scale` are read by the caller. -/

structure PreModel where
  dist : String
  shape : ℚ
  scale : ℚ
deriving DecidableEq, Repr

/-- The mutable state threaded through `pretrain_dsm`'s iteration loop:
the target `model` (in scope but never written), the `premodel` being
optimised, `oldcost` (`none` = the initial `float('inf')`), `patience`,
the recorded validation `costs`, and the count `iters` of loop
iterations executed. -/
structure PreLoopState where
  model : Model
  premodel : PreModel
  oldcost : Option ℚ
  patience : Nat
  costs : List ℚ
  iters : Nat
deriving DecidableEq, Repr

/-- One `pretrain_dsm` iteration is: gradient step on the premodel
(`stepOrc`, abstracting `loss.backward(); optimizer.step()`), evaluate
the validation loss (`vloss`), append it, and run the patience logic:
`if |costs[-1] - oldcost| < thres: patience += 1; if patience == 3:
break`, then `oldcost = costs[-1]`.  Note the comparison against the
initial `+∞` never fires, and `patience` is never reset. -/
def pretrainLoop (stepOrc : PreModel → PreModel) (vloss : PreModel → ℚ)
    (thres : ℚ) : Nat → PreLoopState → PreLoopState
  | 0, s => s
  | fuel + 1, s =>
    let p := stepOrc s.premodel
    let c := vloss p
    let s1 : PreLoopState :=
      { s with premodel := p, costs := s.costs ++ [c], iters := s.iters + 1 }
    match s.oldcost with
    | none => pretrainLoop stepOrc vloss thres fuel { s1 with oldcost := some c }
    | some o =>
      if |c - o| < thres then
        if s.patience + 1 = 3 then { s1 with patience := s.patience + 1 }
        else pretrainLoop stepOrc vloss thres fuel
          { s1 with patience := s.patience + 1, oldcost := some c }
      else pretrainLoop stepOrc vloss thres fuel { s1 with oldcost := some c }

/-- `pretrain_dsm(model, ..., n_iter, lr, thres)`: build the premodel
from `model.dist` alone (`initPre` abstracts the external
`DeepSurvivalMachinesTorch(1, 1, dist=model.dist)` constructor composed
with `premodel.double()`), then iterate.  The returned state carries the
resulting premodel together with the loop bookkeeping. -/
def pretrain_dsm (initPre : String → PreModel) (stepOrc : PreModel → PreModel)
    (vloss : PreModel → ℚ) (model : Model) (n_iter : Nat) (thres : ℚ) :
    PreLoopState :=
  pretrainLoop stepOrc vloss thres n_iter
    { model := model, premodel := initPre model.dist, oldcost := none,
      patience := 0, costs := [], iters := 0 }

/-- Lines 124–125 of `utilities.py`: after pretraining, `train_dsm`
overwrites the target model's `shape` and `scale` with the premodel's
(`model.shape.data.fill_(float(premodel.shape))` and likewise for
`scale`), using the fixed internal hyperparameters `n_iter=10000`,
`thres=1e-4`. -/
def train_dsm_warmstart (initPre : String → PreModel)
    (stepOrc : PreModel → PreModel) (vloss : PreModel → ℚ)
    (model : Model) : Model :=
  let pre := (pretrain_dsm initPre stepOrc vloss model 10000 (1/10000)).premodel
  { model with shape := pre.shape, scale := pre.scale }

/-! ## Main training loop (`train_dsm`): epochs and early stopping -/

/-- `np.argmax` on a list: the first index attaining the maximum value
(`0` on an empty list). -/
def npArgmax (l : List ℚ) : Nat :=
  match l with
  | [] => 0
  | a :: rest => (a :: rest).indexOf (rest.foldl max a)

/-- Outcome of the `train_dsm` epoch loop: either early stopping at
`epoch` with the parameters restored from snapshot index `restored`
(`model.load_state_dict(dics[np.argmax(costs)])`), or completion of all
iterations with the model left in its last-epoch state. -/
inductive TrainOutcome where
  | earlyStop (epoch : Nat) (restored : Nat)
  | completed (epoch : Nat)
deriving DecidableEq, Repr

/-- The epoch of a `TrainOutcome` (the `i` that `train_dsm` returns). -/
def TrainOutcome.epoch : TrainOutcome → Nat
  | .earlyStop e _ => e
  | .completed e => e

/-- Whether the outcome was an early stop. -/
def TrainOutcome.isEarly : TrainOutcome → Bool
  | .earlyStop _ _ => true
  | .completed _ => false

/-- The `train_dsm` epoch loop (lines 138–179), with the per-epoch
validation cost abstracted as the oracle sequence `costs : Nat → ℚ`
(`costs i` is what epoch `i` appends): append the cost, snapshot, then
`if costs[-1] >= oldcost` (`oldcost` starts at `float('inf')`, modelled
as `none`): on the third consecutive non-improvement restore
`dics[np.argmax(costs)]` and return `i`; otherwise reset patience;
finally `oldcost = costs[-1]`. -/
def trainLoop (costs : Nat → ℚ) :
    Nat → Nat → List ℚ → Option ℚ → Nat → TrainOutcome
  | 0, i, _, _, _ => .completed (i - 1)
  | fuel + 1, i, cs, oldcost, patience =>
    let c := costs i
    let cs1 := cs ++ [c]
    let nonimp : Bool :=
      match oldcost with
      | none => false
      | some o => decide (o ≤ c)
    if nonimp then
      if patience = 2 then .earlyStop i (npArgmax cs1)
      else trainLoop costs fuel (i + 1) cs1 (some c) (patience + 1)
    else trainLoop costs fuel (i + 1) cs1 (some c) 0

/-- The epoch-level behaviour of `train_dsm` with validation-cost
oracle `costs` and `n_iter` iterations: starts with `i = 0`,
`costs = []`, `oldcost = +∞`, `patience = 0`. -/
def train_dsm_loop (costs : Nat → ℚ) (n_iter : Nat) : TrainOutcome :=
  trainLoop costs n_iter 0 [] none 0

/-! ## Batching (lines 133 and 139–143) -/

/-- `nbatches = int(x_train.shape[0]/bs)+1`. -/
def nbatches (n bs : Nat) : Nat := n / bs + 1

/-- The Python slice `x[j*bs:(j+1)*bs]`. -/
def batchSlice (l : List ℚ) (bs j : Nat) : List ℚ :=
  (l.drop (j * bs)).take bs

/-- The per-epoch sequence of training batches: one slice per
`j in range(nbatches)`, each handed to a gradient step. -/
def trainBatches (l : List ℚ) (bs : Nat) : List (List ℚ) :=
  (List.range (nbatches l.length bs)).map (batchSlice l bs)

/-! ## Specification lemmas for `npArgmax` -/

theorem npArgmax_lt_length (l : List ℚ) (h : l ≠ []) :
    npArgmax l < l.length := by
  cases l with
  | nil => exact absurd rfl h
  | cons a rest =>
    have hmem : rest.foldl max a ∈ a :: rest := by
      rcases foldl_max_mem rest a with hm | hm
      · rw [hm]; exact List.mem_cons_self a rest
      · exact List.mem_cons.mpr (Or.inr hm)
    exact List.indexOf_lt_length.mpr hmem

theorem getD_npArgmax_ge (l : List ℚ) (j : Nat) (hj : j < l.length) :
    l.getD j 0 ≤ l.getD (npArgmax l) 0 := by
  cases l with
  | nil => simp at hj
  | cons a rest =>
    have hmem : rest.foldl max a ∈ a :: rest := by
      rcases foldl_max_mem rest a with hm | hm
      · rw [hm]; exact List.mem_cons_self a rest
      · exact List.mem_cons.mpr (Or.inr hm)
    have hidx : (a :: rest).indexOf (rest.foldl max a) < (a :: rest).length :=
      List.indexOf_lt_length.mpr hmem
    have h1 : (a :: rest).getD (npArgmax (a :: rest)) 0 = rest.foldl max a := by
      rw [npArgmax, List.getD_eq_getElem _ _ hidx]
      exact List.getElem_indexOf hidx
    rw [h1, List.getD_eq_getElem _ _ hj]
    have hx : (a :: rest)[j] ∈ a :: rest := List.getElem_mem hj
    rcases List.mem_cons.mp hx with hx | hx
    · rw [hx]; exact foldl_max_init_le rest a
    · exact le_foldl_max_of_mem hx a

/-! ## Round-trip lemmas for padding and stripping -/

theorem flatten_map_singleton {α : Type} (l : List α) :
    (l.map (fun c => [c])).flatten = l := by
  induction l with
  | nil => rfl
  | cons a t ih => simp [ih]

theorem filterMap_id_map_some (l : List ℚ) :
    (l.map some).filterMap id = l := by
  induction l with
  | nil => rfl
  | cons a t ih => simp [ih]

theorem filterMap_id_replicate_none (k : Nat) :
    ((List.replicate k (none : Option ℚ)).filterMap id) = [] := by
  induction k with
  | zero => rfl
  | succ n ih => simp [List.replicate_succ, ih]

/-- Stripping one padded-and-newaxised subject row recovers the
subject's sequence. -/
theorem strip_padded_subject (ti : List ℚ) (k : Nat) :
    (((ti.map some ++ List.replicate k none).map (fun c => [c])).flatten).filterMap id
      = ti := by
  rw [flatten_map_singleton, List.filterMap_append, filterMap_id_map_some,
    filterMap_id_replicate_none, List.append_nil]

theorem strip_padded_targets (t : List (List ℚ)) (d : Nat) :
    _reshape_tensor_with_nans
      (t.map (fun ti => (ti.map some ++ List.replicate (d - ti.length) none).map
        (fun c => [c]))) = t.flatten := by
  induction t with
  | nil => rfl
  | cons a rest ih =>
    simp only [_reshape_tensor_with_nans, List.map_cons, List.flatten_cons,
      List.flatten_append, List.filterMap_append] at ih ⊢
    rw [strip_padded_subject a (d - a.length), ih]

/-- **C7**: applying `_reshape_tensor_with_nans` to the padded array
produced by `_get_padded_targets` from ragged scalar sequences of
lengths `[2, 3, 1]` yields exactly the 6-entry concatenation of the
subjects' sequences in subject-major order, every sentinel removed by
the exact missing-value test. -/
theorem targets_pad_strip_roundtrip (a b c : List ℚ)
    (ha : a.length = 2) (hb : b.length = 3) (hc : c.length = 1) :
    Except.map _reshape_tensor_with_nans (_get_padded_targets [a, b, c])
      = .ok (a ++ b ++ c) ∧ (a ++ b ++ c).length = 6 := by
  constructor
  · rw [_get_padded_targets]
    have hmax : pyMax ([a, b, c].map List.length) = .ok 3 := by
      simp [pyMax, ha, hb, hc]
    rw [hmax]
    simp only [Except.map]
    rw [strip_padded_targets [a, b, c] 3]
    simp
  · simp [ha, hb, hc]

/-- Witness for C7 at the concrete ragged input `[[1,2],[3,4,5],[6]]`. -/
theorem targets_pad_strip_roundtrip_concrete :
    Except.map _reshape_tensor_with_nans
        (_get_padded_targets [[1, 2], [3, 4, 5], [6]])
      = .ok ([1, 2] ++ [3, 4, 5] ++ [(6 : ℚ)]) ∧
    (([1, 2] : List ℚ) ++ [3, 4, 5] ++ [6]).length = 6 :=
  targets_pad_strip_roundtrip [1, 2] [3, 4, 5] [6] rfl rfl rfl

/-- **C9**: both padding utilities fail on an empty input with the
undefined-maximum error (`max()` of an empty sequence) rather than
performing any numeric work. -/
theorem padding_empty_input_error :
    _get_padded_features [] = .error "max() arg is an empty sequence" ∧
    _get_padded_targets [] = .error "max() arg is an empty sequence" :=
  ⟨rfl, rfl⟩

/-- **C8**: `get_optimizer` returns an optimizer bound to the model's
parameters at the given learning rate for each of the three supported
kinds, and for any other declared kind fails with an error message that
names the offending value. -/
theorem get_optimizer_spec (kind dist : String) (sh sc : ℚ) (ps : List ℚ)
    (lr : ℚ) (h1 : kind ≠ "Adam") (h2 : kind ≠ "SGD")
    (h3 : kind ≠ "RMSProp") :
    get_optimizer ⟨"Adam", dist, sh, sc, ps⟩ lr = .ok (.adam ps lr) ∧
    get_optimizer ⟨"SGD", dist, sh, sc, ps⟩ lr = .ok (.sgd ps lr) ∧
    get_optimizer ⟨"RMSProp", dist, sh, sc, ps⟩ lr = .ok (.rmsprop ps lr) ∧
    get_optimizer ⟨kind, dist, sh, sc, ps⟩ lr =
      .error ("Optimizer " ++ kind ++ " is not implemented") := by
  refine ⟨rfl, rfl, rfl, ?_⟩
  simp only [get_optimizer, if_neg h1, if_neg h2, if_neg h3]

/-- Witness for C8 at the unrecognised kind `"Foo"`. -/
theorem get_optimizer_spec_witness :
    get_optimizer ⟨"Adam", "Weibull", 0, 0, [1]⟩ 1 = .ok (.adam [1] 1) ∧
    get_optimizer ⟨"SGD", "Weibull", 0, 0, [1]⟩ 1 = .ok (.sgd [1] 1) ∧
    get_optimizer ⟨"RMSProp", "Weibull", 0, 0, [1]⟩ 1 = .ok (.rmsprop [1] 1) ∧
    get_optimizer ⟨"Foo", "Weibull", 0, 0, [1]⟩ 1 =
      .error ("Optimizer " ++ "Foo" ++ " is not implemented") :=
  get_optimizer_spec "Foo" "Weibull" 0 0 [1] 1 (by decide) (by decide)
    (by decide)

/-- **C4**: contrary to the claim, `train_dsm` does not consult the
model's declared optimizer kind: line 128 constructs
`torch.optim.Adam(model.parameters(), lr=lr)` unconditionally, so a
model declaring `"SGD"` is trained with Adam even though
`get_optimizer` (which `train_dsm` never calls) would have produced the
SGD optimizer. -/
theorem train_dsm_ignores_declared_optimizer (dist : String) (sh sc : ℚ)
    (ps : List ℚ) (lr : ℚ) :
    train_dsm_optimizer ⟨"SGD", dist, sh, sc, ps⟩ lr = .adam ps lr ∧
    get_optimizer ⟨"SGD", dist, sh, sc, ps⟩ lr = .ok (.sgd ps lr) ∧
    Optimizer.adam ps lr ≠ .sgd ps lr :=
  ⟨rfl, rfl, fun h => Optimizer.noConfusion h⟩

/-! ## Batching lemmas -/

theorem flatten_batches_take (l : List ℚ) (bs : Nat) :
    ∀ k, ((List.range k).map (batchSlice l bs)).flatten = l.take (k * bs) := by
  intro k
  induction k with
  | zero => simp
  | succ n ih =>
    rw [List.range_succ, List.map_append, List.flatten_append, ih]
    simp only [List.map_cons, List.map_nil, List.flatten_cons,
      List.flatten_nil, List.append_nil, batchSlice]
    rw [Nat.succ_mul, List.take_add]

/-- **C5**: each epoch `train_dsm` cuts the training set into
`floor(n/bs) + 1` consecutive slices of size at most `bs` (whose
concatenation is the whole set), one slice per training step; when `bs`
divides `n` the final processed slice is empty. -/
theorem train_dsm_batches_spec (l : List ℚ) (bs : Nat) (hbs : 0 < bs) :
    (trainBatches l bs).length = l.length / bs + 1 ∧
    (∀ b ∈ trainBatches l bs, b.length ≤ bs) ∧
    (trainBatches l bs).flatten = l ∧
    (bs ∣ l.length → (trainBatches l bs).getLast? = some []) := by
  refine ⟨?_, ?_, ?_, ?_⟩
  · simp [trainBatches, nbatches]
  · intro b hb
    simp only [trainBatches, List.mem_map] at hb
    obtain ⟨j, _, rfl⟩ := hb
    simp [batchSlice]
  · rw [trainBatches, flatten_batches_take l bs (nbatches l.length bs)]
    apply List.take_of_length_le
    have h1 := Nat.div_add_mod l.length bs
    have h2 := Nat.mod_lt l.length hbs
    simp only [nbatches]
    nlinarith
  · intro hdvd
    rw [trainBatches, nbatches, List.range_succ, List.map_append]
    simp only [List.map_cons, List.map_nil]
    rw [List.getLast?_concat]
    have hdrop : l.drop (l.length / bs * bs) = [] := by
      apply List.drop_eq_nil_of_le
      rw [Nat.div_mul_cancel hdvd]
    simp [batchSlice, hdrop]

/-- Witness for C5 at the edge case `n = 100`, `bs = 100`: two batches,
the second one empty. -/
theorem train_dsm_batches_spec_witness :
    (trainBatches (List.replicate 100 (0 : ℚ)) 100).length
        = (List.replicate 100 (0 : ℚ)).length / 100 + 1 ∧
    (∀ b ∈ trainBatches (List.replicate 100 (0 : ℚ)) 100, b.length ≤ 100) ∧
    (trainBatches (List.replicate 100 (0 : ℚ)) 100).flatten
        = List.replicate 100 (0 : ℚ) ∧
    (100 ∣ (List.replicate 100 (0 : ℚ)).length →
      (trainBatches (List.replicate 100 (0 : ℚ)) 100).getLast? = some []) :=
  train_dsm_batches_spec (List.replicate 100 (0 : ℚ)) 100 (by decide)

/-- **C6**: on any non-empty ragged input (`d` the maximum subject
length computed by Python's `max`), `_get_padded_features` succeeds;
every subject is padded to exactly `d` rows; slicing a subject's rows
back to its original length (dropping the appended sentinel rows)
reproduces the original input exactly; and every row at a position at
or beyond the subject's true length is entirely sentinel. -/
theorem features_pad_roundtrip (x : List Arr2) (d : Nat)
    (hd : pyMax (x.map (fun a => a.rows.length)) = .ok d) :
    _get_padded_features x = .ok (x.map (padFeatSubject d)) ∧
    ∀ a ∈ x,
      (padFeatSubject d a).length = d ∧
      ((padFeatSubject d a).take a.rows.length).map (fun r => r.filterMap id)
        = a.rows ∧
      ∀ k, a.rows.length ≤ k → k < d →
        (padFeatSubject d a).getD k [] = List.replicate a.ncols none := by
  constructor
  · rw [_get_padded_features, hd]
  · intro a ha
    have hle : a.rows.length ≤ d :=
      pyMax_ge hd (List.mem_map_of_mem (fun a => a.rows.length) ha)
    refine ⟨?_, ?_, ?_⟩
    · simp only [padFeatSubject, List.length_append, List.length_map,
        List.length_replicate]
      omega
    · rw [padFeatSubject, List.take_left' (by rw [List.length_map])]
      simp only [List.map_map, Function.comp_def, filterMap_id_map_some]
      exact List.map_id' a.rows
    · intro k hk hkd
      rw [padFeatSubject, List.getD_eq_getElem?_getD,
        List.getElem?_append_right (by rw [List.length_map]; exact hk),
        List.length_map, List.getElem?_replicate, if_pos (by omega)]
      rfl

/-- Witness for C6 at the ragged input with subject row counts 2 and 1
and feature width 2. -/
theorem features_pad_roundtrip_witness :
    _get_padded_features [⟨[[1, 2], [3, 4]], 2⟩, ⟨[[5, 6]], 2⟩]
        = .ok ([⟨[[1, 2], [3, 4]], 2⟩, ⟨[[5, 6]], 2⟩].map (padFeatSubject 2)) ∧
    ∀ a ∈ ([⟨[[1, 2], [3, 4]], 2⟩, ⟨[[5, 6]], 2⟩] : List Arr2),
      (padFeatSubject 2 a).length = 2 ∧
      ((padFeatSubject 2 a).take a.rows.length).map (fun r => r.filterMap id)
        = a.rows ∧
      ∀ k, a.rows.length ≤ k → k < 2 →
        (padFeatSubject 2 a).getD k [] = List.replicate a.ncols none :=
  features_pad_roundtrip [⟨[[1, 2], [3, 4]], 2⟩, ⟨[[5, 6]], 2⟩] 2 (by rfl)

/-! ## Step lemmas for the pretraining loop -/

theorem pretrainLoop_step_inf (stepOrc : PreModel → PreModel)
    (vloss : PreModel → ℚ) (thres : ℚ) (fuel : Nat) (m : Model) (p : PreModel)
    (pa : Nat) (cs : List ℚ) (it : Nat) :
    pretrainLoop stepOrc vloss thres (fuel + 1) ⟨m, p, none, pa, cs, it⟩ =
      pretrainLoop stepOrc vloss thres fuel
        ⟨m, stepOrc p, some (vloss (stepOrc p)), pa,
          cs ++ [vloss (stepOrc p)], it + 1⟩ := rfl

theorem pretrainLoop_step_hit_cont (stepOrc : PreModel → PreModel)
    (vloss : PreModel → ℚ) (thres : ℚ) (fuel : Nat) (m : Model) (p : PreModel)
    (o : ℚ) (pa : Nat) (cs : List ℚ) (it : Nat)
    (h : |vloss (stepOrc p) - o| < thres) (hp : pa + 1 ≠ 3) :
    pretrainLoop stepOrc vloss thres (fuel + 1) ⟨m, p, some o, pa, cs, it⟩ =
      pretrainLoop stepOrc vloss thres fuel
        ⟨m, stepOrc p, some (vloss (stepOrc p)), pa + 1,
          cs ++ [vloss (stepOrc p)], it + 1⟩ := by
  simp only [pretrainLoop]
  rw [if_pos h, if_neg hp]

theorem pretrainLoop_step_break (stepOrc : PreModel → PreModel)
    (vloss : PreModel → ℚ) (thres : ℚ) (fuel : Nat) (m : Model) (p : PreModel)
    (o : ℚ) (pa : Nat) (cs : List ℚ) (it : Nat)
    (h : |vloss (stepOrc p) - o| < thres) (hp : pa + 1 = 3) :
    pretrainLoop stepOrc vloss thres (fuel + 1) ⟨m, p, some o, pa, cs, it⟩ =
      ⟨m, stepOrc p, some o, pa + 1, cs ++ [vloss (stepOrc p)], it + 1⟩ := by
  simp only [pretrainLoop]
  rw [if_pos h, if_pos hp]

theorem pretrainLoop_step_miss (stepOrc : PreModel → PreModel)
    (vloss : PreModel → ℚ) (thres : ℚ) (fuel : Nat) (m : Model) (p : PreModel)
    (o : ℚ) (pa : Nat) (cs : List ℚ) (it : Nat)
    (h : ¬ |vloss (stepOrc p) - o| < thres) :
    pretrainLoop stepOrc vloss thres (fuel + 1) ⟨m, p, some o, pa, cs, it⟩ =
      pretrainLoop stepOrc vloss thres fuel
        ⟨m, stepOrc p, some (vloss (stepOrc p)), pa,
          cs ++ [vloss (stepOrc p)], it + 1⟩ := by
  simp only [pretrainLoop]
  rw [if_neg h]

/-- **C3 (counterexample)**: with a constant validation loss,
`pretrain_dsm` runs 4 iterations before stopping, not the 3 the claim
states (the first iteration compares against `+∞` and never counts). -/
theorem pretrain_constant_loss_cex :
    (pretrain_dsm (fun d => ⟨d, 0, 0⟩) id (fun _ => (1 : ℚ))
      ⟨"Adam", "Weibull", 0, 0, []⟩ 10 (1 / 10000)).iters = 4 ∧
    (pretrain_dsm (fun d => ⟨d, 0, 0⟩) id (fun _ => (1 : ℚ))
      ⟨"Adam", "Weibull", 0, 0, []⟩ 10 (1 / 10000)).iters ≠ 3 := by
  have h : (pretrain_dsm (fun d => ⟨d, 0, 0⟩) id (fun _ => (1 : ℚ))
      ⟨"Adam", "Weibull", 0, 0, []⟩ 10 (1 / 10000)).iters = 4 := by
    rw [pretrain_dsm]
    show (pretrainLoop id (fun _ => (1 : ℚ)) (1 / 10000)
      ((((((((((0 + 1) + 1) + 1) + 1) + 1) + 1) + 1) + 1) + 1) + 1)
      ⟨⟨"Adam", "Weibull", 0, 0, []⟩, ⟨"Weibull", 0, 0⟩, none, 0, [], 0⟩).iters
        = 4
    rw [pretrainLoop_step_inf]
    rw [pretrainLoop_step_hit_cont _ _ _ _ _ _ _ _ _ _ (by norm_num)
      (by norm_num)]
    rw [pretrainLoop_step_hit_cont _ _ _ _ _ _ _ _ _ _ (by norm_num)
      (by norm_num)]
    rw [pretrainLoop_step_break _ _ _ _ _ _ _ _ _ _ (by norm_num) rfl]
  exact ⟨h, by rw [h]; norm_num⟩

/-- **C3 (amended)**: `pretrain_dsm` stops early once the absolute
change between consecutive validation losses has been below the
threshold on 3 iterations (the count is cumulative, and the first
iteration, compared against `+∞`, never counts); on data whose
validation loss is constant across iterations it therefore stops after
exactly 4 iterations rather than running to `max_iters`. -/
theorem pretrain_constant_loss_stops_after_four (initPre : String → PreModel)
    (stepOrc : PreModel → PreModel) (vloss : PreModel → ℚ) (m : Model)
    (n_iter : Nat) (thres : ℚ) (hconst : ∀ p q, vloss p = vloss q)
    (hthres : 0 < thres) (hn : 4 ≤ n_iter) :
    (pretrain_dsm initPre stepOrc vloss m n_iter thres).iters = 4 := by
  obtain ⟨k, rfl⟩ : ∃ k, n_iter = k + 4 := ⟨n_iter - 4, by omega⟩
  rw [pretrain_dsm]
  have hit : ∀ p q : PreModel, |vloss p - vloss q| < thres := by
    intro p q
    rw [hconst p q, sub_self, abs_zero]
    exact hthres
  show (pretrainLoop stepOrc vloss thres (k + 3 + 1)
    ⟨m, initPre m.dist, none, 0, [], 0⟩).iters = 4
  rw [pretrainLoop_step_inf]
  show (pretrainLoop stepOrc vloss thres (k + 2 + 1)
    ⟨m, stepOrc (initPre m.dist), some (vloss (stepOrc (initPre m.dist))), 0,
      [vloss (stepOrc (initPre m.dist))], 1⟩).iters = 4
  rw [pretrainLoop_step_hit_cont _ _ _ _ _ _ _ _ _ _ (hit _ _) (by decide)]
  rw [pretrainLoop_step_hit_cont _ _ _ _ _ _ _ _ _ _ (hit _ _) (by decide)]
  rw [pretrainLoop_step_break _ _ _ _ _ _ _ _ _ _ (hit _ _) rfl]

/-- Witness for the amended C3 at concrete oracles (constant loss 1,
threshold 1/10000, 10 allowed iterations). -/
theorem pretrain_constant_loss_stops_after_four_witness :
    (0 : ℚ) < 1 / 10000 ∧ 4 ≤ 10 ∧
    (pretrain_dsm (fun d => ⟨d, 1, 2⟩) id (fun _ => (1 : ℚ))
      ⟨"SGD", "LogNormal", 0, 0, []⟩ 10 (1 / 10000)).iters = 4 :=
  ⟨by norm_num, by norm_num,
    pretrain_constant_loss_stops_after_four (fun d => ⟨d, 1, 2⟩) id
      (fun _ => (1 : ℚ)) ⟨"SGD", "LogNormal", 0, 0, []⟩ 10 (1 / 10000)
      (fun _ _ => rfl) (by norm_num) (by norm_num)⟩

/-! ## Frame lemmas for the pretraining loop -/

theorem pretrainLoop_model_frame (stepOrc : PreModel → PreModel)
    (vloss : PreModel → ℚ) (thres : ℚ) :
    ∀ (fuel : Nat) (s : PreLoopState),
      (pretrainLoop stepOrc vloss thres fuel s).model = s.model := by
  intro fuel
  induction fuel with
  | zero => intro s; rfl
  | succ n ih =>
    rintro ⟨m, p, o, pa, cs, it⟩
    cases o with
    | none => rw [pretrainLoop_step_inf, ih]
    | some o =>
      by_cases h : |vloss (stepOrc p) - o| < thres
      · by_cases hp : pa + 1 = 3
        · rw [pretrainLoop_step_break _ _ _ _ _ _ _ _ _ _ h hp]
        · rw [pretrainLoop_step_hit_cont _ _ _ _ _ _ _ _ _ _ h hp, ih]
      · rw [pretrainLoop_step_miss _ _ _ _ _ _ _ _ _ _ h, ih]

theorem pretrainLoop_premodel_congr (stepOrc : PreModel → PreModel)
    (vloss : PreModel → ℚ) (thres : ℚ) :
    ∀ (fuel : Nat) (m₁ m₂ : Model) (p : PreModel) (o : Option ℚ)
      (pa : Nat) (cs₁ cs₂ : List ℚ) (it₁ it₂ : Nat),
      (pretrainLoop stepOrc vloss thres fuel ⟨m₁, p, o, pa, cs₁, it₁⟩).premodel =
        (pretrainLoop stepOrc vloss thres fuel ⟨m₂, p, o, pa, cs₂, it₂⟩).premodel := by
  intro fuel
  induction fuel with
  | zero => intro m₁ m₂ p o pa cs₁ cs₂ it₁ it₂; rfl
  | succ n ih =>
    intro m₁ m₂ p o pa cs₁ cs₂ it₁ it₂
    cases o with
    | none => rw [pretrainLoop_step_inf, pretrainLoop_step_inf]; exact ih ..
    | some o =>
      by_cases h : |vloss (stepOrc p) - o| < thres
      · by_cases hp : pa + 1 = 3
        · rw [pretrainLoop_step_break _ _ _ _ _ _ _ _ _ _ h hp,
            pretrainLoop_step_break _ _ _ _ _ _ _ _ _ _ h hp]
        · rw [pretrainLoop_step_hit_cont _ _ _ _ _ _ _ _ _ _ h hp,
            pretrainLoop_step_hit_cont _ _ _ _ _ _ _ _ _ _ h hp]
          exact ih ..
      · rw [pretrainLoop_step_miss _ _ _ _ _ _ _ _ _ _ h,
          pretrainLoop_step_miss _ _ _ _ _ _ _ _ _ _ h]
        exact ih ..

/-- **C10**: `pretrain_dsm` never mutates the target model (the
threaded model state is returned unchanged), its result depends on the
target model only through the distribution tag `dist`, and the target
model's `shape`/`scale` are overwritten only afterwards by `train_dsm`
from the returned premodel. -/
theorem pretrain_dsm_frame (initPre : String → PreModel)
    (stepOrc : PreModel → PreModel) (vloss : PreModel → ℚ) (m₁ m₂ : Model)
    (n_iter : Nat) (thres : ℚ) (hdist : m₁.dist = m₂.dist) :
    (pretrain_dsm initPre stepOrc vloss m₁ n_iter thres).model = m₁ ∧
    (pretrain_dsm initPre stepOrc vloss m₁ n_iter thres).premodel =
      (pretrain_dsm initPre stepOrc vloss m₂ n_iter thres).premodel ∧
    train_dsm_warmstart initPre stepOrc vloss m₁ =
      { m₁ with
        shape := (pretrain_dsm initPre stepOrc vloss m₁ 10000
          (1 / 10000)).premodel.shape,
        scale := (pretrain_dsm initPre stepOrc vloss m₁ 10000
          (1 / 10000)).premodel.scale } := by
  refine ⟨pretrainLoop_model_frame stepOrc vloss thres n_iter _, ?_, rfl⟩
  rw [pretrain_dsm, pretrain_dsm, hdist]
  exact pretrainLoop_premodel_congr stepOrc vloss thres n_iter ..

/-- Witness for C10 at two concrete models sharing the `"Weibull"`
distribution tag but differing in every other field. -/
theorem pretrain_dsm_frame_witness :
    (pretrain_dsm (fun d => ⟨d, 0, 0⟩) id (fun _ => (1 : ℚ))
      ⟨"Adam", "Weibull", 1, 2, [3]⟩ 5 (1 / 10)).model
        = ⟨"Adam", "Weibull", 1, 2, [3]⟩ ∧
    (pretrain_dsm (fun d => ⟨d, 0, 0⟩) id (fun _ => (1 : ℚ))
      ⟨"Adam", "Weibull", 1, 2, [3]⟩ 5 (1 / 10)).premodel =
      (pretrain_dsm (fun d => ⟨d, 0, 0⟩) id (fun _ => (1 : ℚ))
        ⟨"SGD", "Weibull", 4, 5, [6]⟩ 5 (1 / 10)).premodel ∧
    train_dsm_warmstart (fun d => ⟨d, 0, 0⟩) id (fun _ => (1 : ℚ))
      ⟨"Adam", "Weibull", 1, 2, [3]⟩ =
      { (⟨"Adam", "Weibull", 1, 2, [3]⟩ : Model) with
        shape := (pretrain_dsm (fun d => ⟨d, 0, 0⟩) id (fun _ => (1 : ℚ))
          ⟨"Adam", "Weibull", 1, 2, [3]⟩ 10000 (1 / 10000)).premodel.shape,
        scale := (pretrain_dsm (fun d => ⟨d, 0, 0⟩) id (fun _ => (1 : ℚ))
          ⟨"Adam", "Weibull", 1, 2, [3]⟩ 10000 (1 / 10000)).premodel.scale } :=
  pretrain_dsm_frame (fun d => ⟨d, 0, 0⟩) id (fun _ => (1 : ℚ))
    ⟨"Adam", "Weibull", 1, 2, [3]⟩ ⟨"SGD", "Weibull", 4, 5, [6]⟩ 5 (1 / 10) rfl

/-! ## Step lemmas for the main training loop -/

theorem trainLoop_step_first (costs : Nat → ℚ) (fuel i : Nat) (cs : List ℚ)
    (pa : Nat) :
    trainLoop costs (fuel + 1) i cs none pa =
      trainLoop costs fuel (i + 1) (cs ++ [costs i]) (some (costs i)) 0 := rfl

theorem trainLoop_step_nonimp_stop (costs : Nat → ℚ) (fuel i : Nat)
    (cs : List ℚ) (o : ℚ) (pa : Nat) (h : o ≤ costs i) (hp : pa = 2) :
    trainLoop costs (fuel + 1) i cs (some o) pa =
      .earlyStop i (npArgmax (cs ++ [costs i])) := by
  simp only [trainLoop, decide_eq_true_eq]
  rw [if_pos h, if_pos hp]

theorem trainLoop_step_nonimp_cont (costs : Nat → ℚ) (fuel i : Nat)
    (cs : List ℚ) (o : ℚ) (pa : Nat) (h : o ≤ costs i) (hp : pa ≠ 2) :
    trainLoop costs (fuel + 1) i cs (some o) pa =
      trainLoop costs fuel (i + 1) (cs ++ [costs i]) (some (costs i))
        (pa + 1) := by
  simp only [trainLoop, decide_eq_true_eq]
  rw [if_pos h, if_neg hp]

theorem trainLoop_step_imp (costs : Nat → ℚ) (fuel i : Nat) (cs : List ℚ)
    (o : ℚ) (pa : Nat) (h : ¬ o ≤ costs i) :
    trainLoop costs (fuel + 1) i cs (some o) pa =
      trainLoop costs fuel (i + 1) (cs ++ [costs i]) (some (costs i)) 0 := by
  simp only [trainLoop, decide_eq_true_eq]
  rw [if_neg h]

/-- **C1 (counterexample)**: on the claim's own example of validation
costs non-improving from epoch 0 onward (1, 6/5, 13/10, then 3/2
forever), `train_dsm` stops early at epoch index 3, not 2: the epoch-0
cost is compared against the initial `+∞` and counts as improving. -/
theorem train_dsm_early_stop_epoch_cex :
    (train_dsm_loop
      (fun i => ([1, 6/5, 13/10] : List ℚ).getD i (3/2)) 10).isEarly = true ∧
    (train_dsm_loop
      (fun i => ([1, 6/5, 13/10] : List ℚ).getD i (3/2)) 10).epoch = 3 ∧
    (train_dsm_loop
      (fun i => ([1, 6/5, 13/10] : List ℚ).getD i (3/2)) 10).epoch ≠ 2 := by
  rw [train_dsm_loop]
  show (trainLoop (fun i => ([1, 6/5, 13/10] : List ℚ).getD i (3/2))
    ((((((((((0 + 1) + 1) + 1) + 1) + 1) + 1) + 1) + 1) + 1) + 1)
    0 [] none 0).isEarly = true ∧ _
  rw [trainLoop_step_first]
  rw [trainLoop_step_nonimp_cont _ _ _ _ _ _
    (by norm_num [List.getD_cons_succ, List.getD_cons_zero]) (by norm_num)]
  rw [trainLoop_step_nonimp_cont _ _ _ _ _ _
    (by norm_num [List.getD_cons_succ, List.getD_cons_zero]) (by norm_num)]
  rw [trainLoop_step_nonimp_stop _ _ _ _ _ _
    (by norm_num [List.getD_cons_succ, List.getD_cons_zero]) rfl]
  exact ⟨rfl, rfl, by simp [TrainOutcome.epoch]⟩

/-- **C1 (amended)**: for a run whose per-epoch validation costs are
non-improving from epoch 0 onward, training halts by early stopping at
epoch index 3 (the 0-indexed fourth epoch): the epoch-0 comparison is
against `oldcost = +∞` and always counts as improving, so epochs 1, 2
and 3 are the three non-improving epochs that exhaust patience. -/
theorem train_dsm_early_stop_at_three (costs : Nat → ℚ) (n_iter : Nat)
    (hmono : ∀ i, costs i ≤ costs (i + 1)) (hn : 4 ≤ n_iter) :
    train_dsm_loop costs n_iter =
      .earlyStop 3 (npArgmax [costs 0, costs 1, costs 2, costs 3]) := by
  obtain ⟨k, rfl⟩ : ∃ k, n_iter = k + 4 := ⟨n_iter - 4, by omega⟩
  rw [train_dsm_loop]
  show trainLoop costs (k + 3 + 1) 0 [] none 0 = _
  rw [trainLoop_step_first]
  show trainLoop costs (k + 2 + 1) 1 [costs 0] (some (costs 0)) 0 = _
  rw [trainLoop_step_nonimp_cont _ _ _ _ _ _ (hmono 0) (by norm_num)]
  show trainLoop costs (k + 1 + 1) 2 [costs 0, costs 1] (some (costs 1)) 1 = _
  rw [trainLoop_step_nonimp_cont _ _ _ _ _ _ (hmono 1) (by norm_num)]
  show trainLoop costs (k + 0 + 1) 3 [costs 0, costs 1, costs 2]
    (some (costs 2)) 2 = _
  rw [trainLoop_step_nonimp_stop _ _ _ _ _ _ (hmono 2) rfl]
  rfl

/-- Witness for the amended C1: constant validation cost 0, 10 allowed
epochs. -/
theorem train_dsm_early_stop_at_three_witness :
    4 ≤ 10 ∧
    train_dsm_loop (fun _ => (0 : ℚ)) 10 =
      .earlyStop 3 (npArgmax [0, 0, 0, 0]) :=
  ⟨by norm_num,
    train_dsm_early_stop_at_three (fun _ => (0 : ℚ)) 10 (fun _ => le_refl 0)
      (by norm_num)⟩

/-! ## Early stopping restores the maximum-cost snapshot -/

theorem range_map_snoc (costs : Nat → ℚ) (i : Nat) :
    (List.range i).map costs ++ [costs i] = (List.range (i + 1)).map costs := by
  rw [List.range_succ, List.map_append]
  rfl

theorem getD_range_map (costs : Nat → ℚ) (n j : Nat) (hj : j < n) :
    ((List.range n).map costs).getD j 0 = costs j := by
  rw [List.getD_eq_getElem _ _ (by simpa using hj)]
  simp

theorem trainLoop_earlyStop_spec (costs : Nat → ℚ) :
    ∀ (fuel i : Nat) (old : Option ℚ) (pat e s : Nat),
      trainLoop costs fuel i ((List.range i).map costs) old pat =
        .earlyStop e s →
      s ≤ e ∧ ∀ j, j ≤ e → costs j ≤ costs s := by
  intro fuel
  induction fuel with
  | zero => intro i old pat e s h; exact TrainOutcome.noConfusion h
  | succ n ih =>
    intro i old pat e s h
    cases old with
    | none =>
      rw [trainLoop_step_first, range_map_snoc] at h
      exact ih (i + 1) (some (costs i)) 0 e s h
    | some o =>
      by_cases hle : o ≤ costs i
      · by_cases hp : pat = 2
        · rw [trainLoop_step_nonimp_stop _ _ _ _ _ _ hle hp,
            range_map_snoc] at h
          injection h with h1 h2
          subst h1
          subst h2
          have hlen : ((List.range (i + 1)).map costs) ≠ [] := by
            simp
          have hlt := npArgmax_lt_length _ hlen
          rw [List.length_map, List.length_range] at hlt
          refine ⟨by omega, ?_⟩
          intro j hj
          have hge := getD_npArgmax_ge ((List.range (i + 1)).map costs) j
            (by simp; omega)
          rw [getD_range_map _ _ _ (by omega),
            getD_range_map _ _ _ (by omega)] at hge
          exact hge
        · rw [trainLoop_step_nonimp_cont _ _ _ _ _ _ hle hp,
            range_map_snoc] at h
          exact ih (i + 1) (some (costs i)) (pat + 1) e s h
      · rw [trainLoop_step_imp _ _ _ _ _ _ hle, range_map_snoc] at h
        exact ih (i + 1) (some (costs i)) 0 e s h

/-- **C2**: when `train_dsm` terminates by early stopping at epoch `e`
with restored snapshot index `s`, the restored snapshot is one of the
retained per-epoch snapshots (`s ≤ e`) and its recorded validation cost
is the maximum over all epochs so far. -/
theorem train_dsm_earlyStop_restores_max (costs : Nat → ℚ)
    (n_iter e s : Nat)
    (h : train_dsm_loop costs n_iter = .earlyStop e s) :
    s ≤ e ∧ ∀ j, j ≤ e → costs j ≤ costs s :=
  trainLoop_earlyStop_spec costs n_iter 0 none 0 e s h

/-- Witness for C2: constant validation cost 0 over 10 allowed epochs
stops early at epoch 3, restoring snapshot 0. -/
theorem train_dsm_earlyStop_restores_max_witness :
    (0 ≤ 3 ∧ ∀ j, j ≤ 3 → (fun _ => (0 : ℚ)) j ≤ (fun _ => (0 : ℚ)) 0) :=
  train_dsm_earlyStop_restores_max (fun _ => (0 : ℚ)) 10 3 0 (by
    rw [train_dsm_loop]
    show trainLoop (fun _ => (0 : ℚ))
      ((((((((((0 + 1) + 1) + 1) + 1) + 1) + 1) + 1) + 1) + 1) + 1)
      0 [] none 0 = _
    rw [trainLoop_step_first]
    rw [trainLoop_step_nonimp_cont (fun _ => (0 : ℚ)) _ _ _ _ _ (le_refl 0)
      (by norm_num)]
    rw [trainLoop_step_nonimp_cont (fun _ => (0 : ℚ)) _ _ _ _ _ (le_refl 0)
      (by norm_num)]
    rw [trainLoop_step_nonimp_stop (fun _ => (0 : ℚ)) _ _ _ _ _ (le_refl 0)
      rfl]
    simp [npArgmax, List.indexOf_cons_self])

end DSMSpec
